import Mathlib

/-!
Verification of the Beta distribution constructor (`src/lib/ctor.js` of
`stdlib-js/stats-base-dists-beta-ctor`).

The repository's own code is the constructor `Beta`, the closure-based
`alpha`/`beta` accessors, and thin delegation wrappers around external
numeric kernels (`cdf`, `quantile`, `mean`, ...).  JavaScript numbers are
modelled by `JSNum` (NaN, the two infinities, and finite values idealized
as rationals); arbitrary JavaScript values passed as arguments are
modelled by `JSVal` (`undefined`, non-number values, numbers).  The
external validator and the guard layers of the external kernels are not
part of this repository, so they are modelled from the spec where a claim
depends on them; the delegation wrappers are parametric in the imported
kernel, mirroring the `require` imports of the source.
-/

/-- A JavaScript number: NaN, an infinity, or a finite value (idealized
as a rational). -/
inductive JSNum where
  | nan
  | posInf
  | negInf
  | fin (q : ℚ)
deriving DecidableEq

/-- A JavaScript value as far as the constructor's validation observes
it: `undefined`, some non-number value, or a number. -/
inductive JSVal where
  | undef
  | nonNumber
  | num (x : JSNum)
deriving DecidableEq

/-- Modelled from the spec: the validator `isPositive` of the external
`@stdlib/assert-is-positive-number` package (its `isPrimitive` export),
whose code is not in this repository.  The spec (§4.1, §3) demands a
finite positive real: only a finite number greater than zero passes;
`undefined`, non-numbers, NaN, infinities, zero and negatives fail. -/
def isPositive : JSVal → Bool
  | .num (.fin q) => decide (0 < q)
  | _ => false

/-- A `Beta` distribution instance: the two closure variables `alpha`
and `beta` captured by the accessors installed in the constructor. -/
structure Beta where
  alpha : JSVal
  beta  : JSVal
deriving DecidableEq

/-- The `TypeError`s thrown by `src/lib/ctor.js`: each names which
parameter was invalid (first shape parameter, second shape parameter, or
an accessor assignment) and carries the offending value, as the
formatted messages in the source do. -/
inductive BetaError where
  | invalidCtorAlpha (v : JSVal)
  | invalidCtorBeta (v : JSVal)
  | invalidAssignment (v : JSVal)
deriving DecidableEq

/-- `new Beta(...)` from `src/lib/ctor.js` (lines 145-184): `args` is
the JavaScript `arguments` object; a missing argument reads as
`undefined`.  With no arguments the defaults `alpha = beta = 1.0` are
installed; otherwise `arguments[0]` and `arguments[1]` are validated in
order and a `TypeError` is thrown at the first failure, before any field
is installed. -/
def Beta.new (args : List JSVal) : Except BetaError Beta :=
  if args.length ≠ 0 then
    let alpha := args.getD 0 .undef
    let beta := args.getD 1 .undef
    if !isPositive alpha then
      .error (.invalidCtorAlpha alpha)
    else if !isPositive beta then
      .error (.invalidCtorBeta beta)
    else
      .ok ⟨alpha, beta⟩
  else
    .ok ⟨.num (.fin 1), .num (.fin 1)⟩

/-- `Beta(...)` invoked as a plain function (lines 139-144): with zero
arguments it forwards to `new Beta()`, otherwise it forwards exactly
`arguments[0]` and `arguments[1]` to `new Beta`. -/
def betaCall (args : List JSVal) : Except BetaError Beta :=
  if args.length = 0 then
    Beta.new []
  else
    Beta.new [args.getD 0 .undef, args.getD 1 .undef]

/-- The `alpha` setter (lines 164-169): an invalid value throws before
the closure variable is assigned, so the state is returned unchanged
alongside the error. -/
def setAlpha (d : Beta) (value : JSVal) : Beta × Option BetaError :=
  if !isPositive value then
    (d, some (.invalidAssignment value))
  else
    ({ d with alpha := value }, none)

/-- The `beta` setter (lines 177-182), same shape as the `alpha`
setter. -/
def setBeta (d : Beta) (value : JSVal) : Beta × Option BetaError :=
  if !isPositive value then
    (d, some (.invalidAssignment value))
  else
    ({ d with beta := value }, none)

/-- Both fields of the instance hold positive (finite) numbers. -/
def validState (d : Beta) : Bool :=
  isPositive d.alpha && isPositive d.beta

/-- An observable operation on a constructed instance: assigning to
`alpha`, assigning to `beta`, or any read (property get or evaluator
call) — reads go through getters and delegation wrappers that only ever
read the closure variables. -/
inductive Op where
  | setAlphaOp (v : JSVal)
  | setBetaOp (v : JSVal)
  | readOp
deriving DecidableEq

/-- Effect of one operation on the instance state. -/
def applyOp (d : Beta) : Op → Beta × Option BetaError
  | .setAlphaOp v => setAlpha d v
  | .setBetaOp v => setBeta d v
  | .readOp => (d, none)

/-- State after a sequence of operations (errors leave the state as the
setter returned it, i.e. unchanged). -/
def runOps (d : Beta) (ops : List Op) : Beta :=
  ops.foldl (fun s op => (applyOp s op).1) d

/-- `betaCDF` (lines 55-57): the `cdf` method delegates to the imported
`cdf` kernel with the given input and the current field values.  The
kernel is an external package, so the wrapper is parametric in it,
mirroring the `require` import. -/
def betaCDF (cdf : JSVal → JSVal → JSVal → JSVal) (d : Beta) (x : JSVal) : JSVal :=
  cdf x d.alpha d.beta

/-- `betaLogCDF` (lines 66-68). -/
def betaLogCDF (logcdf : JSVal → JSVal → JSVal → JSVal) (d : Beta) (x : JSVal) : JSVal :=
  logcdf x d.alpha d.beta

/-- `betaLogPDF` (lines 77-79). -/
def betaLogPDF (logpdf : JSVal → JSVal → JSVal → JSVal) (d : Beta) (x : JSVal) : JSVal :=
  logpdf x d.alpha d.beta

/-- `betaMGF` (lines 88-90). -/
def betaMGF (mgf : JSVal → JSVal → JSVal → JSVal) (d : Beta) (t : JSVal) : JSVal :=
  mgf t d.alpha d.beta

/-- `betaPDF` (lines 99-101). -/
def betaPDF (pdf : JSVal → JSVal → JSVal → JSVal) (d : Beta) (x : JSVal) : JSVal :=
  pdf x d.alpha d.beta

/-- `betaQuantile` (lines 110-112). -/
def betaQuantile (quantile : JSVal → JSVal → JSVal → JSVal) (d : Beta) (p : JSVal) : JSVal :=
  quantile p d.alpha d.beta

/-- The `entropy` read-only accessor (lines 201-203): computed on each
access from the imported kernel and the current field values. -/
def entropyGet (entropy : JSVal → JSVal → JSVal) (d : Beta) : JSVal :=
  entropy d.alpha d.beta

/-- The `kurtosis` accessor (lines 219-221). -/
def kurtosisGet (kurtosis : JSVal → JSVal → JSVal) (d : Beta) : JSVal :=
  kurtosis d.alpha d.beta

/-- The `mean` accessor (lines 237-239). -/
def meanGet (mean : JSVal → JSVal → JSVal) (d : Beta) : JSVal :=
  mean d.alpha d.beta

/-- The `median` accessor (lines 255-257). -/
def medianGet (median : JSVal → JSVal → JSVal) (d : Beta) : JSVal :=
  median d.alpha d.beta

/-- The `mode` accessor (lines 273-275). -/
def modeGet (mode : JSVal → JSVal → JSVal) (d : Beta) : JSVal :=
  mode d.alpha d.beta

/-- The `skewness` accessor (lines 291-293). -/
def skewnessGet (skewness : JSVal → JSVal → JSVal) (d : Beta) : JSVal :=
  skewness d.alpha d.beta

/-- The `stdev` accessor (lines 309-311). -/
def stdevGet (stdev : JSVal → JSVal → JSVal) (d : Beta) : JSVal :=
  stdev d.alpha d.beta

/-- The `variance` accessor (lines 327-329). -/
def varianceGet (variance : JSVal → JSVal → JSVal) (d : Beta) : JSVal :=
  variance d.alpha d.beta

/-- A number outside the probability interval `[0,1]`: NaN, an infinity
or a finite value below `0` or above `1`. -/
def outsideUnit : JSNum → Bool
  | .nan => true
  | .posInf => true
  | .negInf => true
  | .fin q => decide (q < 0 ∨ 1 < q)

/-- Modelled from the spec (§4.4): the guard layer of the external
`@stdlib/stats-base-dists-beta-cdf` package, whose code is not in this
repository.  NaN propagates; `x ≤ 0` gives `0`; `x ≥ 1` gives `1`; on
the open support the value is the regularized incomplete beta computed
by a numeric routine, abstracted here as the `interior` argument. -/
def cdfK (interior : ℚ → ℚ → ℚ → ℚ) (x : JSNum) (a b : ℚ) : JSNum :=
  match x with
  | .nan => .nan
  | .negInf => .fin 0
  | .posInf => .fin 1
  | .fin q =>
    if q ≤ 0 then .fin 0
    else if 1 ≤ q then .fin 1
    else .fin (interior q a b)

/-- Modelled from the spec (§4.4): the guard layer of the external
`logcdf` package.  NaN propagates; `x ≤ 0` gives `-Infinity` (log of 0);
`x ≥ 1` gives `0` (log of 1). -/
def logcdfK (interior : ℚ → ℚ → ℚ → ℚ) (x : JSNum) (a b : ℚ) : JSNum :=
  match x with
  | .nan => .nan
  | .negInf => .negInf
  | .posInf => .fin 0
  | .fin q =>
    if q ≤ 0 then .negInf
    else if 1 ≤ q then .fin 0
    else .fin (interior q a b)

/-- Modelled from the spec (§4.3): the guard layer of the external `pdf`
package.  NaN propagates; outside `[0,1]` the density is `0`; on `[0,1]`
(boundary limit cases included, which may be infinite) the value comes
from the numeric routine abstracted as `interior`. -/
def pdfK (interior : ℚ → ℚ → ℚ → JSNum) (x : JSNum) (a b : ℚ) : JSNum :=
  match x with
  | .nan => .nan
  | .negInf => .fin 0
  | .posInf => .fin 0
  | .fin q =>
    if q < 0 ∨ 1 < q then .fin 0
    else interior q a b

/-- Modelled from the spec (§4.3): the guard layer of the external
`logpdf` package.  NaN propagates; outside `[0,1]` the log-density is
`-Infinity`. -/
def logpdfK (interior : ℚ → ℚ → ℚ → JSNum) (x : JSNum) (a b : ℚ) : JSNum :=
  match x with
  | .nan => .nan
  | .negInf => .negInf
  | .posInf => .negInf
  | .fin q =>
    if q < 0 ∨ 1 < q then .negInf
    else interior q a b

/-- Modelled from the spec (§4.5): the guard layer of the external `mgf`
package.  NaN propagates; every other argument is evaluated by the
convergent-series routine abstracted as `interior`. -/
def mgfK (interior : JSNum → ℚ → ℚ → JSNum) (t : JSNum) (a b : ℚ) : JSNum :=
  match t with
  | .nan => .nan
  | u => interior u a b

/-- Modelled from the spec (§4.6): the guard layer of the external
`quantile` package.  For `p` outside `[0,1]` (NaN included) the result
is NaN; `p = 0` and `p = 1` return `0` and `1` exactly, without running
the iteration; interior probabilities go to the numeric inversion
abstracted as `interior`. -/
def quantileK (interior : ℚ → ℚ → ℚ → ℚ) (p : JSNum) (a b : ℚ) : JSNum :=
  match p with
  | .nan => .nan
  | .negInf => .nan
  | .posInf => .nan
  | .fin q =>
    if q < 0 ∨ 1 < q then .nan
    else if q = 0 then .fin 0
    else if q = 1 then .fin 1
    else .fin (interior q a b)

theorem isPositive_undef : isPositive .undef = false := rfl

/-- A successful construction always installs positive fields: the only
`ok` results of `Beta.new` are the validated pair and the defaults. -/
theorem Beta.new_ok_valid (args : List JSVal) (d : Beta)
    (h : Beta.new args = .ok d) : validState d = true := by
  simp only [Beta.new] at h
  split at h
  · split at h
    · exact absurd h (by simp)
    · split at h
      · exact absurd h (by simp)
      · rename_i h1 h2
        rw [Bool.not_eq_true', Bool.not_eq_false] at h1 h2
        simp only [Except.ok.injEq] at h
        subst h
        simp only [List.getD_eq_getElem?_getD] at h1 h2
        simp [validState, h1, h2]
  · simp only [Except.ok.injEq] at h
    subst h
    decide

/-- One operation preserves positivity of both fields. -/
theorem validState_applyOp (d : Beta) (op : Op) (hd : validState d = true) :
    validState (applyOp d op).1 = true := by
  rw [validState, Bool.and_eq_true] at hd
  cases op with
  | setAlphaOp v =>
    by_cases hv : isPositive v
    · simp [applyOp, setAlpha, hv, validState, hd.2]
    · simp [applyOp, setAlpha, hv, validState, hd.1, hd.2]
  | setBetaOp v =>
    by_cases hv : isPositive v
    · simp [applyOp, setBeta, hv, validState, hd.1]
    · simp [applyOp, setBeta, hv, validState, hd.1, hd.2]
  | readOp => simp [applyOp, validState, hd.1, hd.2]

/-- Any sequence of operations preserves positivity of both fields. -/
theorem validState_runOps (d : Beta) (ops : List Op) (hd : validState d = true) :
    validState (runOps d ops) = true := by
  induction ops generalizing d with
  | nil => exact hd
  | cons op rest ih => exact ih _ (validState_applyOp d op hd)

/-- C9: constructing with zero arguments succeeds and yields an instance
with exactly `alpha = 1.0` and `beta = 1.0`. -/
theorem beta_default_construction :
    Beta.new [] = .ok ⟨.num (.fin 1), .num (.fin 1)⟩ := rfl

/-- C3: constructing with exactly one argument always fails, whatever
the argument is — even a valid positive number — both under `new` and
under plain-function invocation (both-or-neither policy: `arguments[1]`
reads as `undefined`, which never validates). -/
theorem beta_ctor_rejects_single_argument (a : JSVal) :
    (∃ e, Beta.new [a] = .error e) ∧ (∃ e, betaCall [a] = .error e) := by
  constructor
  · by_cases ha : isPositive a
    · exact ⟨.invalidCtorBeta .undef, by simp [Beta.new, ha, isPositive_undef]⟩
    · exact ⟨.invalidCtorAlpha a, by simp [Beta.new, ha]⟩
  · by_cases ha : isPositive a
    · exact ⟨.invalidCtorBeta .undef, by simp [betaCall, Beta.new, ha, isPositive_undef]⟩
    · exact ⟨.invalidCtorAlpha a, by simp [betaCall, Beta.new, ha]⟩

/-- C10: invoking the constructor as a plain function behaves exactly as
invoking it with `new` on the same arguments: zero arguments give the
default instance, and otherwise exactly the first two arguments are
forwarded, so arguments beyond the second are ignored. -/
theorem beta_plain_call_matches_new :
    (∀ args, betaCall args = Beta.new args) ∧
    (∀ a b rest, betaCall (a :: b :: rest) = Beta.new [a, b]) ∧
    betaCall [] = Beta.new [] := by
  refine ⟨?_, fun a b rest => rfl, rfl⟩
  intro args
  match args with
  | [] => rfl
  | [a] => rfl
  | a :: b :: rest => rfl

/-- C2: whenever either argument of a two-argument construction is not a
positive (finite) number — zero, negative, NaN, or not a number at all —
construction fails with an error naming the offending shape parameter
(the first one checked wins) and carrying the offending value, and no
instance is produced; in particular `(-5, 2)`, `(0, 2)` and `(NaN, 2)`
all fail on the first parameter. -/
theorem beta_ctor_rejects_nonpositive (a b : JSVal)
    (h : isPositive a = false ∨ isPositive b = false) :
    (∃ e, Beta.new [a, b] = .error e) ∧
    (isPositive a = false → Beta.new [a, b] = .error (.invalidCtorAlpha a)) ∧
    (isPositive a = true → isPositive b = false →
      Beta.new [a, b] = .error (.invalidCtorBeta b)) ∧
    Beta.new [.num (.fin (-5)), .num (.fin 2)] =
      .error (.invalidCtorAlpha (.num (.fin (-5)))) ∧
    Beta.new [.num (.fin 0), .num (.fin 2)] =
      .error (.invalidCtorAlpha (.num (.fin 0))) ∧
    Beta.new [.num .nan, .num (.fin 2)] =
      .error (.invalidCtorAlpha (.num .nan)) := by
  refine ⟨?_, fun ha => by simp [Beta.new, ha], fun ha hb => by simp [Beta.new, ha, hb],
    rfl, rfl, rfl⟩
  rcases h with h | h
  · exact ⟨.invalidCtorAlpha a, by simp [Beta.new, h]⟩
  · by_cases ha : isPositive a
    · exact ⟨.invalidCtorBeta b, by simp [Beta.new, ha, h]⟩
    · exact ⟨.invalidCtorAlpha a, by simp [Beta.new, ha]⟩

theorem beta_ctor_rejects_nonpositive_witness :
    Beta.new [.num (.fin (-5)), .num (.fin 2)] =
      .error (.invalidCtorAlpha (.num (.fin (-5)))) :=
  (beta_ctor_rejects_nonpositive (.num (.fin (-5))) (.num (.fin 2))
    (Or.inl (by decide))).2.1 (by decide)

/-- C4: assigning any value that is not a positive (finite) number to
`alpha` or to `beta` of a validly constructed instance fails with an
invalid-assignment error carrying the offending value and returns the
state completely unchanged (both fields keep their prior values). -/
theorem beta_setter_rejects_invalid_and_preserves_state (d : Beta) (v : JSVal)
    (hd : validState d = true) (hv : isPositive v = false) :
    setAlpha d v = (d, some (.invalidAssignment v)) ∧
    setBeta d v = (d, some (.invalidAssignment v)) := by
  constructor <;> simp [setAlpha, setBeta, hv]

theorem beta_setter_rejects_invalid_and_preserves_state_witness :
    setAlpha ⟨.num (.fin 2), .num (.fin 4)⟩ (.num (.fin (-1))) =
      (⟨.num (.fin 2), .num (.fin 4)⟩,
        some (.invalidAssignment (.num (.fin (-1))))) ∧
    setBeta ⟨.num (.fin 2), .num (.fin 4)⟩ (.num (.fin (-1))) =
      (⟨.num (.fin 2), .num (.fin 4)⟩,
        some (.invalidAssignment (.num (.fin (-1))))) :=
  beta_setter_rejects_invalid_and_preserves_state
    ⟨.num (.fin 2), .num (.fin 4)⟩ (.num (.fin (-1))) (by decide) (by decide)

/-- C1: after a successful construction both fields are positive, and
they stay positive at every later observable instant: a successful write
installs exactly the validated positive value, a failed write changes
neither field, reads change nothing, and every sequence of such
operations preserves the invariant. -/
theorem beta_fields_always_positive :
    (∀ args d, Beta.new args = .ok d → validState d = true) ∧
    (∀ d v, isPositive v = true →
      setAlpha d v = ({ d with alpha := v }, none) ∧
      setBeta d v = ({ d with beta := v }, none)) ∧
    (∀ d v, isPositive v = false →
      setAlpha d v = (d, some (.invalidAssignment v)) ∧
      setBeta d v = (d, some (.invalidAssignment v))) ∧
    (∀ d, applyOp d .readOp = (d, none)) ∧
    (∀ args d ops, Beta.new args = .ok d → validState (runOps d ops) = true) := by
  refine ⟨Beta.new_ok_valid, ?_, ?_, fun d => rfl, ?_⟩
  · intro d v hv
    constructor <;> simp [setAlpha, setBeta, hv]
  · intro d v hv
    constructor <;> simp [setAlpha, setBeta, hv]
  · intro args d ops h
    exact validState_runOps d ops (Beta.new_ok_valid args d h)

theorem beta_fields_always_positive_witness :
    validState (runOps ⟨.num (.fin 2), .num (.fin 4)⟩
      [.setAlphaOp (.num (.fin 5)), .setBetaOp (.num (.fin (-3))), .readOp]) = true :=
  beta_fields_always_positive.2.2.2.2 [.num (.fin 2), .num (.fin 4)]
    ⟨.num (.fin 2), .num (.fin 4)⟩
    [.setAlphaOp (.num (.fin 5)), .setBetaOp (.num (.fin (-3))), .readOp] rfl

/-- C5: every derived property and evaluator method is computed per
access from the current field values: each delegates to its imported
kernel applied to the current `alpha` and `beta` (and the given scalar
argument), so after a successful reassignment of `alpha` (to `v`) or of
`beta` (to `w`) every subsequent access uses the new value. -/
theorem beta_accessors_use_current_parameters
    (cdf logcdf logpdf pdf mgf quantile : JSVal → JSVal → JSVal → JSVal)
    (entropy kurtosis mean median mode skewness stdev variance : JSVal → JSVal → JSVal)
    (d da db : Beta) (v w x : JSVal)
    (hsa : setAlpha d v = (da, none)) (hsb : setBeta d w = (db, none)) :
    (betaCDF cdf d x = cdf x d.alpha d.beta ∧
     betaLogCDF logcdf d x = logcdf x d.alpha d.beta ∧
     betaLogPDF logpdf d x = logpdf x d.alpha d.beta ∧
     betaPDF pdf d x = pdf x d.alpha d.beta ∧
     betaMGF mgf d x = mgf x d.alpha d.beta ∧
     betaQuantile quantile d x = quantile x d.alpha d.beta ∧
     entropyGet entropy d = entropy d.alpha d.beta ∧
     kurtosisGet kurtosis d = kurtosis d.alpha d.beta ∧
     meanGet mean d = mean d.alpha d.beta ∧
     medianGet median d = median d.alpha d.beta ∧
     modeGet mode d = mode d.alpha d.beta ∧
     skewnessGet skewness d = skewness d.alpha d.beta ∧
     stdevGet stdev d = stdev d.alpha d.beta ∧
     varianceGet variance d = variance d.alpha d.beta) ∧
    (da = { d with alpha := v } ∧
     betaCDF cdf da x = cdf x v d.beta ∧
     betaLogCDF logcdf da x = logcdf x v d.beta ∧
     betaLogPDF logpdf da x = logpdf x v d.beta ∧
     betaPDF pdf da x = pdf x v d.beta ∧
     betaMGF mgf da x = mgf x v d.beta ∧
     betaQuantile quantile da x = quantile x v d.beta ∧
     entropyGet entropy da = entropy v d.beta ∧
     kurtosisGet kurtosis da = kurtosis v d.beta ∧
     meanGet mean da = mean v d.beta ∧
     medianGet median da = median v d.beta ∧
     modeGet mode da = mode v d.beta ∧
     skewnessGet skewness da = skewness v d.beta ∧
     stdevGet stdev da = stdev v d.beta ∧
     varianceGet variance da = variance v d.beta) ∧
    (db = { d with beta := w } ∧
     betaCDF cdf db x = cdf x d.alpha w ∧
     betaLogCDF logcdf db x = logcdf x d.alpha w ∧
     betaLogPDF logpdf db x = logpdf x d.alpha w ∧
     betaPDF pdf db x = pdf x d.alpha w ∧
     betaMGF mgf db x = mgf x d.alpha w ∧
     betaQuantile quantile db x = quantile x d.alpha w ∧
     entropyGet entropy db = entropy d.alpha w ∧
     kurtosisGet kurtosis db = kurtosis d.alpha w ∧
     meanGet mean db = mean d.alpha w ∧
     medianGet median db = median d.alpha w ∧
     modeGet mode db = mode d.alpha w ∧
     skewnessGet skewness db = skewness d.alpha w ∧
     stdevGet stdev db = stdev d.alpha w ∧
     varianceGet variance db = variance d.alpha w) := by
  have hda : da = { d with alpha := v } := by
    by_cases hv : isPositive v
    · have := congrArg Prod.fst hsa
      simpa [setAlpha, hv] using this.symm
    · simp [setAlpha, hv] at hsa
  have hdb : db = { d with beta := w } := by
    by_cases hw : isPositive w
    · have := congrArg Prod.fst hsb
      simpa [setBeta, hw] using this.symm
    · simp [setBeta, hw] at hsb
  subst hda
  subst hdb
  repeat' apply And.intro
  all_goals rfl

theorem beta_accessors_use_current_parameters_witness :
    betaCDF (fun u _ _ => u) ⟨.num (.fin 5), .num (.fin 3)⟩ (.num (.fin 0)) =
      .num (.fin 0) :=
  (beta_accessors_use_current_parameters
    (fun u _ _ => u) (fun u _ _ => u) (fun u _ _ => u) (fun u _ _ => u)
    (fun u _ _ => u) (fun u _ _ => u)
    (fun u _ => u) (fun u _ => u) (fun u _ => u) (fun u _ => u)
    (fun u _ => u) (fun u _ => u) (fun u _ => u) (fun u _ => u)
    ⟨.num (.fin 2), .num (.fin 3)⟩ ⟨.num (.fin 5), .num (.fin 3)⟩
    ⟨.num (.fin 2), .num (.fin 7)⟩
    (.num (.fin 5)) (.num (.fin 7)) (.num (.fin 0)) rfl rfl).2.1.2.1

/-- C6: for valid shape parameters `a, b > 0`, the quantile function
returns NaN for every probability outside `[0,1]` (NaN included) and
returns exactly `0` at `p = 0` and exactly `1` at `p = 1` — without
invoking the numeric iteration, as the edge results do not depend on the
interior routine at all. -/
theorem beta_quantile_edge_cases (interior : ℚ → ℚ → ℚ → ℚ) (a b : ℚ)
    (ha : 0 < a) (hb : 0 < b) :
    (∀ p, outsideUnit p = true → quantileK interior p a b = .nan) ∧
    quantileK interior (.fin 0) a b = .fin 0 ∧
    quantileK interior (.fin 1) a b = .fin 1 ∧
    (∀ other, quantileK other (.fin 0) a b = .fin 0 ∧
      quantileK other (.fin 1) a b = .fin 1) := by
  have edge : ∀ i : ℚ → ℚ → ℚ → ℚ, quantileK i (.fin 0) a b = .fin 0 ∧
      quantileK i (.fin 1) a b = .fin 1 := by
    intro i
    constructor <;> norm_num [quantileK]
  refine ⟨?_, (edge interior).1, (edge interior).2, edge⟩
  intro p hp
  cases p with
  | nan => rfl
  | posInf => rfl
  | negInf => rfl
  | fin q =>
    simp only [outsideUnit, decide_eq_true_eq] at hp
    simp [quantileK, hp]

theorem beta_quantile_edge_cases_witness :
    quantileK (fun _ _ _ => 1/2) (.fin 0) 1 1 = .fin 0 :=
  (beta_quantile_edge_cases (fun _ _ _ => 1/2) 1 1 (by norm_num) (by norm_num)).2.1

/-- C7: with valid shape parameters, every evaluator kernel is a total
function (no error can be raised; the error type never occurs in their
signatures): NaN input always propagates to NaN output, and every
out-of-domain input yields its conventional sentinel — `cdf` clamps to
`0`/`1`, `logcdf` to `-Infinity`/`0`, `pdf` to `0`, `logpdf` to
`-Infinity`, and `quantile` answers NaN outside `[0,1]`. -/
theorem beta_evaluators_nan_and_sentinels
    (ic il : ℚ → ℚ → ℚ → ℚ) (ip ilp : ℚ → ℚ → ℚ → JSNum)
    (im : JSNum → ℚ → ℚ → JSNum) (iq : ℚ → ℚ → ℚ → ℚ)
    (a b : ℚ) (ha : 0 < a) (hb : 0 < b) :
    (cdfK ic .nan a b = .nan ∧ logcdfK il .nan a b = .nan ∧
     pdfK ip .nan a b = .nan ∧ logpdfK ilp .nan a b = .nan ∧
     mgfK im .nan a b = .nan ∧ quantileK iq .nan a b = .nan) ∧
    (∀ q, q ≤ 0 → cdfK ic (.fin q) a b = .fin 0) ∧
    (∀ q, 1 ≤ q → cdfK ic (.fin q) a b = .fin 1) ∧
    cdfK ic .negInf a b = .fin 0 ∧ cdfK ic .posInf a b = .fin 1 ∧
    (∀ q, q ≤ 0 → logcdfK il (.fin q) a b = .negInf) ∧
    (∀ q, 1 ≤ q → logcdfK il (.fin q) a b = .fin 0) ∧
    (∀ q, q < 0 ∨ 1 < q → pdfK ip (.fin q) a b = .fin 0) ∧
    pdfK ip .negInf a b = .fin 0 ∧ pdfK ip .posInf a b = .fin 0 ∧
    (∀ q, q < 0 ∨ 1 < q → logpdfK ilp (.fin q) a b = .negInf) ∧
    logpdfK ilp .negInf a b = .negInf ∧ logpdfK ilp .posInf a b = .negInf ∧
    (∀ p, outsideUnit p = true → quantileK iq p a b = .nan) := by
  refine ⟨⟨rfl, rfl, rfl, rfl, rfl, rfl⟩, ?_, ?_, rfl, rfl, ?_, ?_, ?_, rfl, rfl,
    ?_, rfl, rfl, ?_⟩
  · intro q hq
    simp [cdfK, hq]
  · intro q hq
    have h0 : ¬ q ≤ 0 := by linarith
    simp [cdfK, h0, hq]
  · intro q hq
    simp [logcdfK, hq]
  · intro q hq
    have h0 : ¬ q ≤ 0 := by linarith
    simp [logcdfK, h0, hq]
  · intro q hq
    simp [pdfK, hq]
  · intro q hq
    simp [logpdfK, hq]
  · intro p hp
    cases p with
    | nan => rfl
    | posInf => rfl
    | negInf => rfl
    | fin q =>
      simp only [outsideUnit, decide_eq_true_eq] at hp
      simp [quantileK, hp]

theorem beta_evaluators_nan_and_sentinels_witness :
    cdfK (fun _ _ _ => 1/2) .nan 2 3 = .nan :=
  (beta_evaluators_nan_and_sentinels (fun _ _ _ => 1/2) (fun _ _ _ => 1/2)
    (fun _ _ _ => .fin 1) (fun _ _ _ => .fin 0) (fun _ _ _ => .fin 1)
    (fun _ _ _ => 1/2) 2 3 (by norm_num) (by norm_num)).1.1
